import Mathlib

/-!
# Verification of the Quant Cockpit analytics module

A shallow embedding of the analytics pipeline of this repository
(`analytics/metrics.py`, the data-loading pivot, and the dashboard's
failure dispatch in `app.py`), together with theorems settling the
specification's claims about it.

Prices are modelled as exact rationals (`ℚ`); quantities that involve a
square root (standard deviations, the Sharpe objective) live in `ℝ`.
Missing cells are modelled as `Option ℚ`, mirroring pandas `NaN`.
Random draws of `np.random.normal(mu, sigma)` are modelled as
`mu + sigma * z` for an explicit stream `z` of standard draws.
-/

namespace QuantCockpit

/-- A price matrix as produced by the loader: one column label per ticker and
one row of closing prices per date (dates in increasing order). -/
structure PriceMatrix where
  tickers : List String
  rows : List (List ℚ)
deriving DecidableEq

/-- Mean of a list of rationals (`Series.mean`): sum divided by length.
Empty list gives Lean's junk value `0/0 = 0`. -/
def meanQ (xs : List ℚ) : ℚ := xs.sum / (xs.length : ℚ)

/-- Sample variance with `ddof = 1` (the pandas `std` default squared):
`Σ (x - mean)² / (n - 1)`. -/
def sampleVar (xs : List ℚ) : ℚ :=
  (xs.map (fun x => (x - meanQ xs) ^ 2)).sum / ((xs.length : ℚ) - 1)

/-- Sample standard deviation (pandas `Series.std`, `ddof = 1`). -/
noncomputable def stdQ (xs : List ℚ) : ℝ := Real.sqrt ((sampleVar xs : ℚ) : ℝ)

/-- Rows `1, 2, …` of `df.pct_change()`: each row is the elementwise
`cur/prev - 1` of the current against the previous price row, all present. -/
def pctChangeGo (prev : List ℚ) : List (List ℚ) → List (List (Option ℚ))
  | [] => []
  | cur :: rest => (List.zipWith (fun a b => some (b / a - 1)) prev cur) :: pctChangeGo cur rest

/-- `df.pct_change()`: the first row is all-`NaN` (modelled as `none`),
row `t ≥ 1` holds `price[t]/price[t-1] - 1` per column. -/
def pctChange : List (List ℚ) → List (List (Option ℚ))
  | [] => []
  | r :: rs => r.map (fun _ => (none : Option ℚ)) :: pctChangeGo r rs

/-- Extract a row all of whose cells are present; `none` as soon as any cell
is missing (the per-row test performed by `dropna`). -/
def seqRow : List (Option ℚ) → Option (List ℚ)
  | [] => some []
  | none :: _ => none
  | some x :: r => (seqRow r).map (fun t => x :: t)

/-- `df.dropna()`: keep exactly the rows with no missing cell, stripped of
the `Option` layer. -/
def dropna (M : List (List (Option ℚ))) : List (List ℚ) := M.filterMap seqRow

/-- `df.pct_change().dropna()` — the ReturnsMatrix of the metrics calculator. -/
def returnsRows (rows : List (List ℚ)) : List (List ℚ) := dropna (pctChange rows)

/-- Column `j` of a matrix of rationals (out-of-range cells read as `0`;
all uses are guarded by length hypotheses). -/
def colj (M : List (List ℚ)) (j : ℕ) : List ℚ := M.map (fun r => r.getD j 0)

/-- Annualized volatility of ticker `j`: `returns.std() * sqrt(252)`. -/
noncomputable def volatility (m : PriceMatrix) (j : ℕ) : ℝ :=
  stdQ (colj (returnsRows m.rows) j) * Real.sqrt 252

/-- `calculate_metrics`: the returns matrix `df.pct_change().dropna()`
paired with the per-ticker annualized volatility vector. -/
noncomputable def calculate_metrics (m : PriceMatrix) :
    List (List ℚ) × (ℕ → ℝ) :=
  (returnsRows m.rows, fun j => volatility m j)

/-- The value rows of `pct_change` (used to characterize `returnsRows`). -/
def valsGo (prev : List ℚ) : List (List ℚ) → List (List ℚ)
  | [] => []
  | cur :: rest => (List.zipWith (fun a b => b / a - 1) prev cur) :: valsGo cur rest

lemma seqRow_map_some (l : List ℚ) : seqRow (l.map some) = some l := by
  induction l with
  | nil => rfl
  | cons x t ih => simp [seqRow, ih]

lemma zipWith_some_eq (p c : List ℚ) :
    List.zipWith (fun a b => some (b / a - 1)) p c
      = (List.zipWith (fun a b => b / a - 1) p c).map some := by
  simp [List.map_zipWith]

lemma dropna_pctChangeGo (rest : List (List ℚ)) : ∀ prev : List ℚ,
    dropna (pctChangeGo prev rest) = valsGo prev rest := by
  induction rest with
  | nil => intro prev; rfl
  | cons cur rest ih =>
      intro prev
      simp only [pctChangeGo, valsGo, dropna, List.filterMap_cons] at *
      rw [zipWith_some_eq, seqRow_map_some]
      simpa [dropna] using ih cur

lemma returnsRows_cons (a : ℚ) (r : List ℚ) (rs : List (List ℚ)) :
    returnsRows ((a :: r) :: rs) = valsGo (a :: r) rs := by
  simp only [returnsRows, pctChange, dropna, List.filterMap_cons, List.map_cons, seqRow]
  exact dropna_pctChangeGo rs (a :: r)

lemma valsGo_length (rest : List (List ℚ)) : ∀ prev,
    (valsGo prev rest).length = rest.length := by
  induction rest with
  | nil => intro prev; rfl
  | cons cur rest ih => intro prev; simp [valsGo, ih cur]

lemma valsGo_getD (rest : List (List ℚ)) : ∀ (prev : List ℚ) (t : ℕ), t < rest.length →
    (valsGo prev rest).getD t []
      = List.zipWith (fun a b => b / a - 1) ((prev :: rest).getD t []) (rest.getD t []) := by
  induction rest with
  | nil => intro prev t h; simp at h
  | cons cur rest ih =>
      intro prev t h
      cases t with
      | zero => rfl
      | succ t =>
          simp only [valsGo, List.getD_cons_succ]
          exact ih cur t (Nat.lt_of_succ_lt_succ h)

lemma getD_zipWith (f : ℚ → ℚ → ℚ) (p c : List ℚ) (j : ℕ)
    (hp : j < p.length) (hc : j < c.length) :
    (List.zipWith f p c).getD j 0 = f (p.getD j 0) (c.getD j 0) := by
  rw [List.getD_eq_getElem _ _ (by rw [List.length_zipWith]; omega),
      List.getD_eq_getElem _ _ hp, List.getD_eq_getElem _ _ hc]
  exact List.getElem_zipWith ..

lemma rows_getD_len (rows : List (List ℚ)) (n : ℕ) (hL : ∀ r ∈ rows, r.length = n)
    (t : ℕ) (h : t < rows.length) : (rows.getD t []).length = n := by
  rw [List.getD_eq_getElem _ _ h]
  exact hL _ (List.getElem_mem ..)

lemma returnsRows_length (rows : List (List ℚ)) (n : ℕ)
    (hL : ∀ r ∈ rows, r.length = n)
    (hn : 0 < n) (hrows : 0 < rows.length) :
    (returnsRows rows).length = rows.length - 1 := by
  cases rows with
  | nil => simp at hrows
  | cons r rs =>
      have hr : r.length = n := hL r (List.mem_cons_self ..)
      cases r with
      | nil => simp at hr; omega
      | cons a r' =>
          rw [returnsRows_cons, valsGo_length]
          simp

lemma returnsRows_entry (rows : List (List ℚ)) (n : ℕ)
    (hL : ∀ r ∈ rows, r.length = n) (hn : 0 < n) :
    ∀ t j, t + 1 < rows.length → j < n →
      ((returnsRows rows).getD t []).getD j 0
        = (rows.getD (t + 1) []).getD j 0 / (rows.getD t []).getD j 0 - 1 := by
  intro t j ht hj
  cases rows with
  | nil => simp at ht
  | cons r rs =>
      have hr : r.length = n := hL r (List.mem_cons_self ..)
      cases r with
      | nil => simp at hr; omega
      | cons a r' =>
          rw [returnsRows_cons, valsGo_getD rs (a :: r') t (by simpa using ht),
            List.getD_cons_succ]
          exact getD_zipWith _ _ _ j
            (by rw [rows_getD_len ((a :: r') :: rs) n hL t (Nat.lt_of_succ_lt ht)]; omega)
            (by
              have := rows_getD_len ((a :: r') :: rs) n hL (t + 1) ht
              rw [List.getD_cons_succ] at this
              omega)

/-- C1: for a well-formed PriceMatrix (uniform rows, at least one ticker,
positive prices, at least one row), the ReturnsMatrix of `calculate_metrics`
has one fewer row than the PriceMatrix, its general entry is
`price[t+1]/price[t] - 1` per ticker, and in particular its first row is
`price[1]/price[0] - 1` elementwise. -/
theorem C1_returns_shape (m : PriceMatrix)
    (hL : ∀ r ∈ m.rows, r.length = m.tickers.length)
    (hn : 0 < m.tickers.length) (hrows : 0 < m.rows.length)
    (_hpos : ∀ r ∈ m.rows, ∀ x ∈ r, 0 < x) :
    (calculate_metrics m).1.length = m.rows.length - 1 ∧
    (∀ t j, t + 1 < m.rows.length → j < m.tickers.length →
      ((calculate_metrics m).1.getD t []).getD j 0
        = (m.rows.getD (t + 1) []).getD j 0 / (m.rows.getD t []).getD j 0 - 1) ∧
    (2 ≤ m.rows.length → ∀ j, j < m.tickers.length →
      ((calculate_metrics m).1.getD 0 []).getD j 0
        = (m.rows.getD 1 []).getD j 0 / (m.rows.getD 0 []).getD j 0 - 1) := by
  refine ⟨returnsRows_length m.rows m.tickers.length hL hn hrows,
    returnsRows_entry m.rows m.tickers.length hL hn, ?_⟩
  intro h2 j hj
  exact returnsRows_entry m.rows m.tickers.length hL hn 0 j (by omega) hj

/-- Concrete 2-ticker, 3-day matrix used to witness C1. -/
def mC1 : PriceMatrix := ⟨["A", "B"], [[1, 2], [2, 1], [4, 3]]⟩

theorem C1_returns_shape_witness :
    (calculate_metrics mC1).1.length = 2 ∧
    ((calculate_metrics mC1).1.getD 0 []).getD 0 0
      = (mC1.rows.getD 1 []).getD 0 0 / (mC1.rows.getD 0 []).getD 0 0 - 1 := by
  have h := C1_returns_shape mC1 (by decide) (by decide) (by decide) (by decide)
  exact ⟨h.1.trans (by decide), h.2.2 (by decide) 0 (by decide)⟩

lemma sum_eq_zero_all (l : List ℚ) (h : ∀ x ∈ l, 0 ≤ x) (hs : l.sum = 0) :
    ∀ x ∈ l, x = 0 := by
  induction l with
  | nil => simp
  | cons a t ih =>
      simp only [List.sum_cons] at hs
      have ha : 0 ≤ a := h a (List.mem_cons_self ..)
      have hts : 0 ≤ t.sum := List.sum_nonneg fun x hx => h x (List.mem_cons_of_mem _ hx)
      have ha0 : a = 0 := by linarith
      have ht0 : t.sum = 0 := by linarith
      intro x hx
      rcases List.mem_cons.mp hx with h1 | h2
      · exact h1.trans ha0
      · exact ih (fun y hy => h y (List.mem_cons_of_mem _ hy)) ht0 x h2

lemma sampleVar_nonneg (xs : List ℚ) (h2 : 2 ≤ xs.length) : 0 ≤ sampleVar xs := by
  apply div_nonneg
  · apply List.sum_nonneg
    intro x hx
    obtain ⟨y, _, rfl⟩ := List.mem_map.mp hx
    positivity
  · have : (2 : ℚ) ≤ (xs.length : ℚ) := by exact_mod_cast h2
    linarith

lemma sampleVar_eq_zero (xs : List ℚ) (h2 : 2 ≤ xs.length) (h : sampleVar xs = 0) :
    ∀ x ∈ xs, x = meanQ xs := by
  have hden : ((xs.length : ℚ) - 1) ≠ 0 := by
    have : (2 : ℚ) ≤ (xs.length : ℚ) := by exact_mod_cast h2
    linarith
  have hsum : (xs.map (fun x => (x - meanQ xs) ^ 2)).sum = 0 := by
    unfold sampleVar at h
    exact (div_eq_zero_iff.mp h).resolve_right hden
  intro x hx
  have hx2 : (x - meanQ xs) ^ 2 = 0 :=
    sum_eq_zero_all _
      (fun y hy => by obtain ⟨z, _, rfl⟩ := List.mem_map.mp hy; positivity)
      hsum _ (List.mem_map_of_mem _ hx)
  have := sq_eq_zero_iff.mp hx2
  linarith

/-- C2: for a well-formed PriceMatrix with enough rows for the sample standard
deviation to be defined, the volatility of each ticker equals the sample
standard deviation of its daily returns scaled by `sqrt 252`, is non-negative,
and vanishes only if all of that ticker's returns are identical. -/
theorem C2_volatility (m : PriceMatrix)
    (hL : ∀ r ∈ m.rows, r.length = m.tickers.length)
    (h3 : 3 ≤ m.rows.length)
    (_hpos : ∀ r ∈ m.rows, ∀ x ∈ r, 0 < x) :
    ∀ j, j < m.tickers.length →
      ((calculate_metrics m).2 j = stdQ (colj (returnsRows m.rows) j) * Real.sqrt 252) ∧
      (0 ≤ (calculate_metrics m).2 j) ∧
      ((calculate_metrics m).2 j = 0 →
        ∀ x ∈ colj (returnsRows m.rows) j, ∀ y ∈ colj (returnsRows m.rows) j, x = y) := by
  intro j hj
  have hn : 0 < m.tickers.length := Nat.lt_of_le_of_lt (Nat.zero_le j) hj
  have hclen : (colj (returnsRows m.rows) j).length = (returnsRows m.rows).length := by
    simp [colj]
  have hrlen : (returnsRows m.rows).length = m.rows.length - 1 :=
    returnsRows_length m.rows m.tickers.length hL hn (by omega)
  have h2 : 2 ≤ (colj (returnsRows m.rows) j).length := by omega
  refine ⟨rfl, mul_nonneg (Real.sqrt_nonneg _) (Real.sqrt_nonneg _), ?_⟩
  intro h0 x hx y hy
  have h252 : Real.sqrt 252 ≠ 0 := ne_of_gt (Real.sqrt_pos.mpr (by norm_num))
  have hstd : stdQ (colj (returnsRows m.rows) j) = 0 := by
    rcases mul_eq_zero.mp h0 with h | h
    · exact h
    · exact absurd h h252
  unfold stdQ at hstd
  have hvar_le : ((sampleVar (colj (returnsRows m.rows) j) : ℚ) : ℝ) ≤ 0 :=
    Real.sqrt_eq_zero'.mp hstd
  have hvar0 : sampleVar (colj (returnsRows m.rows) j) = 0 :=
    le_antisymm (by exact_mod_cast hvar_le) (sampleVar_nonneg _ h2)
  have hmean := sampleVar_eq_zero _ h2 hvar0
  rw [hmean x hx, hmean y hy]

/-- Concrete 1-ticker, 3-day matrix used to witness C2. -/
def mC2 : PriceMatrix := ⟨["A"], [[1], [2], [4]]⟩

theorem C2_volatility_witness : 0 ≤ (calculate_metrics mC2).2 0 :=
  (C2_volatility mC2 (by decide) (by decide) (by decide) 0 (by decide)).2.1

/-! ## Portfolio optimizer (`optimize_portfolio`)

`optimize_portfolio` recomputes returns with a bare `df.pct_change()` (no
`dropna`); pandas then skips the `NaN` first row when taking `mean()` and
`cov()`.  `colOpt` reads a column of such an `Option`-valued frame, `nanMean`
and `covP` are the NaN-skipping mean and the pairwise-complete sample
covariance. -/

/-- Column `j` of an `Option`-valued frame (missing cells read as `none`). -/
def colOpt (M : List (List (Option ℚ))) (j : ℕ) : List (Option ℚ) :=
  M.map (fun r => r.getD j none)

/-- pandas NaN-skipping `Series.mean`: mean of the present values. -/
def nanMean (l : List (Option ℚ)) : ℚ := meanQ (l.filterMap id)

/-- The pairwise-complete observations of two `Option`-valued columns
(pandas `DataFrame.cov` drops a row for a pair iff either entry is missing). -/
def nanPairs (a b : List (Option ℚ)) : List (ℚ × ℚ) :=
  (a.zip b).filterMap (fun p =>
    match p.1, p.2 with
    | some x, some y => some (x, y)
    | _, _ => none)

/-- Sample covariance (`ddof = 1`) of a list of paired observations. -/
def covP (ps : List (ℚ × ℚ)) : ℚ :=
  ((ps.map (fun p =>
      (p.1 - meanQ (ps.map Prod.fst)) * (p.2 - meanQ (ps.map Prod.snd)))).sum)
    / ((ps.length : ℚ) - 1)

/-- `mu = df.pct_change().mean() * 252` — entry `j`. -/
def code_mu (m : PriceMatrix) (j : ℕ) : ℚ :=
  nanMean (colOpt (pctChange m.rows) j) * 252

/-- `S = df.pct_change().cov() * 252` — entry `(i, j)`. -/
def code_S (m : PriceMatrix) (i j : ℕ) : ℚ :=
  covP (nanPairs (colOpt (pctChange m.rows) i) (colOpt (pctChange m.rows) j)) * 252

/-- The `negative_sharpe` objective of `optimize_portfolio`:
`-(w·mu / sqrt(wᵀ S w))`. -/
noncomputable def negative_sharpe (m : PriceMatrix) (w : List ℝ) : ℝ :=
  -((∑ j ∈ Finset.range m.tickers.length, w.getD j 0 * ((code_mu m j : ℚ) : ℝ)) /
    Real.sqrt (∑ i ∈ Finset.range m.tickers.length,
      ∑ j ∈ Finset.range m.tickers.length,
        w.getD i 0 * w.getD j 0 * ((code_S m i j : ℚ) : ℝ)))

/-- The single equality constraint `lambda x: np.sum(x) - 1`. -/
def code_constraintEq (w : List ℝ) : ℝ := w.sum - 1

/-- `bounds = tuple((0, 1) for _ in range(num_assets))`. -/
def code_bounds (m : PriceMatrix) : List (ℚ × ℚ) :=
  List.replicate m.tickers.length (0, 1)

/-- `initial_guess = num_assets * [1. / num_assets]`. -/
def initial_guess (m : PriceMatrix) : List ℚ :=
  List.replicate m.tickers.length (1 / (m.tickers.length : ℚ))

/-- The solver method passed to `scipy.optimize.minimize`. -/
def code_method : String := "SLSQP"

/-- Spec-side annualized mean-return vector: the mean daily return of ticker
`j` over the ReturnsMatrix, times 252. -/
def spec_mu (m : PriceMatrix) (j : ℕ) : ℚ :=
  meanQ (colj (returnsRows m.rows) j) * 252

/-- Spec-side annualized covariance: the daily sample covariance of the
return columns `i` and `j` of the ReturnsMatrix, times 252. -/
def spec_S (m : PriceMatrix) (i j : ℕ) : ℚ :=
  covP ((colj (returnsRows m.rows) i).zip (colj (returnsRows m.rows) j)) * 252

/-- Spec-side objective `f(w) = -(w·mu) / sqrt(wᵀ Sigma w)` built from the
spec-side mean vector and covariance matrix. -/
noncomputable def spec_objective (m : PriceMatrix) (w : List ℝ) : ℝ :=
  -((∑ j ∈ Finset.range m.tickers.length, w.getD j 0 * ((spec_mu m j : ℚ) : ℝ)) /
    Real.sqrt (∑ i ∈ Finset.range m.tickers.length,
      ∑ j ∈ Finset.range m.tickers.length,
        w.getD i 0 * w.getD j 0 * ((spec_S m i j : ℚ) : ℝ)))

lemma getD_map_some (l : List ℚ) (j : ℕ) (h : j < l.length) :
    (l.map some).getD j none = some (l.getD j 0) := by
  rw [List.getD_eq_getElem _ _ (by simpa using h), List.getD_eq_getElem _ _ h]
  simp

lemma getD_map_none (l : List ℚ) (j : ℕ) :
    (l.map (fun _ => (none : Option ℚ))).getD j none = none := by
  rcases Nat.lt_or_ge j l.length with h | h
  · rw [List.getD_eq_getElem _ _ (by simpa using h)]
    simp
  · rw [List.getD_eq_default]
    simpa using h

lemma colOpt_pctChangeGo (n j : ℕ) (hj : j < n) :
    ∀ (rest : List (List ℚ)) (prev : List ℚ), prev.length = n →
      (∀ r ∈ rest, r.length = n) →
      colOpt (pctChangeGo prev rest) j = (colj (valsGo prev rest) j).map some := by
  intro rest
  induction rest with
  | nil => intro prev _ _; rfl
  | cons cur rest ih =>
      intro prev hp hrest
      have hcur : cur.length = n := hrest cur (List.mem_cons_self ..)
      show (List.zipWith (fun a b => some (b / a - 1)) prev cur).getD j none ::
            colOpt (pctChangeGo cur rest) j
          = some ((List.zipWith (fun a b => b / a - 1) prev cur).getD j 0) ::
            (colj (valsGo cur rest) j).map some
      rw [zipWith_some_eq,
        getD_map_some _ j (by rw [List.length_zipWith]; omega),
        ih cur hcur (fun r hr => hrest r (List.mem_cons_of_mem _ hr))]

lemma colOpt_pctChange (rows : List (List ℚ)) (n : ℕ)
    (hL : ∀ r ∈ rows, r.length = n) (hrows : 0 < rows.length)
    (j : ℕ) (hj : j < n) :
    colOpt (pctChange rows) j = none :: (colj (returnsRows rows) j).map some := by
  cases rows with
  | nil => simp at hrows
  | cons r rs =>
      have hr : r.length = n := hL r (List.mem_cons_self ..)
      cases r with
      | nil => simp at hr; omega
      | cons a r' =>
          show ((a :: r').map (fun _ => (none : Option ℚ))).getD j none ::
                colOpt (pctChangeGo (a :: r') rs) j = _
          rw [getD_map_none, returnsRows_cons,
            colOpt_pctChangeGo n j hj rs (a :: r') hr
              (fun x hx => hL x (List.mem_cons_of_mem _ hx))]

lemma filterMap_id_map_some (l : List ℚ) : (l.map some).filterMap id = l := by
  induction l with
  | nil => rfl
  | cons a t ih => simp [ih]

lemma filterMap_pair_some (l : List (ℚ × ℚ)) :
    (l.map (fun q => ((some q.1 : Option ℚ), (some q.2 : Option ℚ)))).filterMap
      (fun p => match p.1, p.2 with
        | some x, some y => some (x, y)
        | _, _ => none) = l := by
  induction l with
  | nil => rfl
  | cons a t ih => simp [ih]

lemma nanPairs_none_some (xs ys : List ℚ) :
    nanPairs (none :: xs.map some) (none :: ys.map some) = xs.zip ys := by
  show ((none, none) :: (xs.map some).zip (ys.map some)).filterMap _ = _
  rw [List.filterMap_cons, List.zip_map]
  show ((xs.zip ys).map (fun q => (some q.1, some q.2))).filterMap _ = _
  exact filterMap_pair_some (xs.zip ys)

/-- C3: `optimize_portfolio` sets up exactly the specified program — the
NaN-skipping annualized mean vector and covariance matrix it computes agree
with the spec's mean/covariance of the ReturnsMatrix, the objective is the
spec's negative Sharpe ratio, the constraint is `sum w = 1`, the bounds are
`[0,1]` per asset, the start point is equal weights `1/n`, and the solver
method is the sequential-quadratic-programming method `SLSQP`. -/
theorem C3_optimizer_program (m : PriceMatrix)
    (hL : ∀ r ∈ m.rows, r.length = m.tickers.length)
    (hrows : 0 < m.rows.length)
    (_hpos : ∀ r ∈ m.rows, ∀ x ∈ r, 0 < x) :
    (∀ j, j < m.tickers.length → code_mu m j = spec_mu m j) ∧
    (∀ i, i < m.tickers.length → ∀ j, j < m.tickers.length →
      code_S m i j = spec_S m i j) ∧
    (∀ w : List ℝ, negative_sharpe m w = spec_objective m w) ∧
    (∀ w : List ℝ, code_constraintEq w = w.sum - 1) ∧
    code_bounds m = List.replicate m.tickers.length (0, 1) ∧
    initial_guess m = List.replicate m.tickers.length (1 / (m.tickers.length : ℚ)) ∧
    code_method = "SLSQP" := by
  have hmu : ∀ j, j < m.tickers.length → code_mu m j = spec_mu m j := by
    intro j hj
    unfold code_mu spec_mu nanMean
    rw [colOpt_pctChange m.rows m.tickers.length hL hrows j hj,
      List.filterMap_cons]
    show meanQ (((colj (returnsRows m.rows) j).map some).filterMap id) * 252 = _
    rw [filterMap_id_map_some]
  have hS : ∀ i, i < m.tickers.length → ∀ j, j < m.tickers.length →
      code_S m i j = spec_S m i j := by
    intro i hi j hj
    unfold code_S spec_S
    rw [colOpt_pctChange m.rows m.tickers.length hL hrows i hi,
      colOpt_pctChange m.rows m.tickers.length hL hrows j hj,
      nanPairs_none_some]
  refine ⟨hmu, hS, ?_, fun _ => rfl, rfl, rfl, rfl⟩
  intro w
  unfold negative_sharpe spec_objective
  have h1 : (∑ j ∈ Finset.range m.tickers.length, w.getD j 0 * ((code_mu m j : ℚ) : ℝ))
      = ∑ j ∈ Finset.range m.tickers.length, w.getD j 0 * ((spec_mu m j : ℚ) : ℝ) := by
    refine Finset.sum_congr rfl ?_
    intro j hj
    rw [hmu j (Finset.mem_range.mp hj)]
  have h2 : (∑ i ∈ Finset.range m.tickers.length, ∑ j ∈ Finset.range m.tickers.length,
        w.getD i 0 * w.getD j 0 * ((code_S m i j : ℚ) : ℝ))
      = ∑ i ∈ Finset.range m.tickers.length, ∑ j ∈ Finset.range m.tickers.length,
        w.getD i 0 * w.getD j 0 * ((spec_S m i j : ℚ) : ℝ) := by
    refine Finset.sum_congr rfl ?_
    intro i hi
    refine Finset.sum_congr rfl ?_
    intro j hj
    rw [hS i (Finset.mem_range.mp hi) j (Finset.mem_range.mp hj)]
  rw [h1, h2]

/-- Concrete 2-ticker, 3-day matrix used to witness C3. -/
def mC3 : PriceMatrix := ⟨["A", "B"], [[1, 2], [2, 3], [4, 5]]⟩

theorem C3_optimizer_program_witness : code_mu mC3 0 = spec_mu mC3 0 :=
  (C3_optimizer_program mC3 (by decide) (by decide) (by decide)).1 0 (by decide)

/-- The data handed to `scipy.optimize.minimize` by `optimize_portfolio`. -/
structure OptProblem where
  objective : List ℝ → ℝ
  x0 : List ℚ
  bounds : List (ℚ × ℚ)
  constraintEq : List ℝ → ℝ
  method : String

/-- The concrete minimization problem `optimize_portfolio` sets up. -/
noncomputable def optimizeProblem (m : PriceMatrix) : OptProblem :=
  ⟨negative_sharpe m, initial_guess m, code_bounds m, code_constraintEq, code_method⟩

/-- `optimize_portfolio`: run the solver on the problem and return
`dict(zip(df.columns, result.x))`, with no validation of the solver result.
The solver itself (scipy's SLSQP) is an external numerical routine, modelled
as an arbitrary function `solve` of the problem. -/
noncomputable def optimize_portfolio (m : PriceMatrix)
    (solve : OptProblem → List ℝ) : List (String × ℝ) :=
  m.tickers.zip (solve (optimizeProblem m))

/-- C10: whatever vector the solver returns (scipy only guarantees
`result.x` has the shape of `x0`), `optimize_portfolio` zips it with the
columns unvalidated, so the mapping has exactly one entry per ticker and its
keys are the ticker column labels in column order. -/
theorem C10_weights_keys (m : PriceMatrix) (solve : OptProblem → List ℝ)
    (hsolve : ∀ p : OptProblem, (solve p).length = p.x0.length) :
    (optimize_portfolio m solve).length = m.tickers.length ∧
    (optimize_portfolio m solve).map Prod.fst = m.tickers := by
  have hx : (solve (optimizeProblem m)).length = m.tickers.length := by
    rw [hsolve]
    simp [optimizeProblem, initial_guess]
  constructor
  · unfold optimize_portfolio
    rw [List.length_zip, hx]
    simp
  · unfold optimize_portfolio
    exact List.map_fst_zip _ _ (le_of_eq hx.symm)

/-- A stand-in solver obeying scipy's shape contract, used to witness C10. -/
noncomputable def solveC10 : OptProblem → List ℝ := fun p => List.replicate p.x0.length 0

/-- Concrete 2-ticker matrix used to witness C10. -/
def mC10 : PriceMatrix := ⟨["A", "B"], [[1, 2], [2, 3]]⟩

theorem C10_weights_keys_witness :
    (optimize_portfolio mC10 solveC10).map Prod.fst = ["A", "B"] := by
  have h := C10_weights_keys mC10 solveC10 (fun p => by simp [solveC10])
  rw [h.2]
  rfl

/-! ## Monte Carlo simulator (`run_monte_carlo`)

Each call of `np.random.normal(mu, sigma)` is modelled as `mu + sigma * z`
for an explicit stream `z` of standard draws; `z x t` is the draw consumed by
simulation run `x` at step `t` (step 0 being the initial shock). -/

/-- `last_price = df.iloc[-1].mean()` — mean of the latest price row. -/
def last_price (m : PriceMatrix) : ℚ := meanQ (m.rows.getLastD [])

/-- `daily_return = returns.mean().mean()` — the mean over tickers of the
per-ticker mean daily return. -/
def daily_return (m : PriceMatrix) : ℚ :=
  meanQ ((List.range m.tickers.length).map (fun j => meanQ (colj (returnsRows m.rows) j)))

/-- Mean of a list of reals (`Series.mean`). -/
noncomputable def meanR (xs : List ℝ) : ℝ := xs.sum / (xs.length : ℝ)

/-- `daily_vol = returns.std().mean()` — the mean over tickers of the
per-ticker sample standard deviation of daily returns. -/
noncomputable def daily_vol (m : PriceMatrix) : ℝ :=
  meanR ((List.range m.tickers.length).map (fun j => stdQ (colj (returnsRows m.rows) j)))

/-- The price of one simulation run at day index `t`: the initial shocked
price `last_price * (1 + Normal(0, daily_vol))` at `t = 0`, then
`price[t] = price[t-1] * (1 + Normal(daily_return, daily_vol))`. -/
noncomputable def mcPrice (m : PriceMatrix) (z : ℕ → ℝ) : ℕ → ℝ
  | 0 => ((last_price m : ℚ) : ℝ) * (1 + (0 + daily_vol m * z 0))
  | t + 1 => mcPrice m z t * (1 + (((daily_return m : ℚ) : ℝ) + daily_vol m * z (t + 1)))

/-- `run_monte_carlo`: the resulting frame, as its list of columns —
`simulation_df[x] = price_series` makes column `x` the path of run `x`,
holding the initial shocked price followed by one price per simulated day. -/
noncomputable def run_monte_carlo (m : PriceMatrix) (num_simulations days : ℕ)
    (z : ℕ → ℕ → ℝ) : List (List ℝ) :=
  (List.range num_simulations).map (fun x => (List.range (days + 1)).map (mcPrice m (z x)))

/-- Row count of the simulation frame (the length of its day index). -/
def simNumRows (s : List (List ℝ)) : ℕ := (s.headD []).length

/-- Column count of the simulation frame (one column per simulation run). -/
def simNumCols (s : List (List ℝ)) : ℕ := s.length

/-- Concrete 1-ticker matrix and zero draw stream used for C5. -/
def mC5 : PriceMatrix := ⟨["A"], [[1], [2]]⟩

/-- Zero draw stream used for C5. -/
def zC5 : ℕ → ℕ → ℝ := fun _ _ => 0

/-- C5 as stated is false: with `N = 1` simulation and a `D = 1` day horizon,
the returned frame has 2 rows and 1 column, not `N = 1` rows and
`D + 1 = 2` columns — runs are the columns, not the rows. -/
theorem C5_shape_counterexample :
    ¬ (simNumRows (run_monte_carlo mC5 1 1 zC5) = 1 ∧
       simNumCols (run_monte_carlo mC5 1 1 zC5) = 2) := by
  intro h
  have h1 : simNumRows (run_monte_carlo mC5 1 1 zC5) = 2 := by
    simp [simNumRows, run_monte_carlo, List.range_succ, List.range_zero]
  exact absurd (h1.symm.trans h.1) (by norm_num)

lemma run_monte_carlo_getD (m : PriceMatrix) (N D : ℕ) (z : ℕ → ℕ → ℝ)
    (x : ℕ) (hx : x < N) :
    (run_monte_carlo m N D z).getD x [] = (List.range (D + 1)).map (mcPrice m (z x)) := by
  unfold run_monte_carlo
  rw [List.getD_eq_getElem _ _ (by simpa using hx)]
  simp

lemma range_map_getD (D : ℕ) (f : ℕ → ℝ) (t : ℕ) (ht : t < D + 1) :
    ((List.range (D + 1)).map f).getD t 0 = f t := by
  rw [List.getD_eq_getElem _ _ (by simpa using ht)]
  simp

/-- C5 amended: for every PriceMatrix, simulation count N and horizon D, the
frame returned by `run_monte_carlo` has exactly N columns (one per run) and
each of its columns has exactly D+1 entries (the initial shocked price plus
one per simulated day); for N = 1 and D = 0 the output is the single value
`last_price_mean * (1 + shock)` with shock drawn from `Normal(0, daily_vol)`
(the draw `z 0 0` scaled by `daily_vol`). -/
theorem C5_simulation_shape (m : PriceMatrix) (N D : ℕ) (z : ℕ → ℕ → ℝ) :
    simNumCols (run_monte_carlo m N D z) = N ∧
    (∀ x, x < N → ((run_monte_carlo m N D z).getD x []).length = D + 1) ∧
    run_monte_carlo m 1 0 z
      = [[((last_price m : ℚ) : ℝ) * (1 + (0 + daily_vol m * z 0 0))]] := by
  refine ⟨by simp [simNumCols, run_monte_carlo], ?_, ?_⟩
  · intro x hx
    rw [run_monte_carlo_getD m N D z x hx]
    simp
  · simp [run_monte_carlo, List.range_succ, List.range_zero, mcPrice]

theorem C5_simulation_shape_witness :
    simNumCols (run_monte_carlo mC5 3 5 zC5) = 3 ∧
    ((run_monte_carlo mC5 3 5 zC5).getD 1 []).length = 6 :=
  ⟨(C5_simulation_shape mC5 3 5 zC5).1,
    (C5_simulation_shape mC5 3 5 zC5).2.1 1 (by decide)⟩

/-- C6: every simulated path starts from the mean of the latest price row
with one initial multiplicative shock `1 + Normal(0, daily_vol)` and then
compounds `price[t] = price[t-1] * (1 + Normal(daily_return, daily_vol))`,
where `daily_return` and `daily_vol` are the scalar means over all tickers of
the per-ticker mean and sample standard deviation of daily returns. -/
theorem C6_path_recurrence (m : PriceMatrix) (N D : ℕ) (z : ℕ → ℕ → ℝ) :
    ∀ x, x < N →
      (((run_monte_carlo m N D z).getD x []).getD 0 0
          = ((last_price m : ℚ) : ℝ) * (1 + (0 + daily_vol m * z x 0))) ∧
      (∀ t, t < D →
        ((run_monte_carlo m N D z).getD x []).getD (t + 1) 0
          = ((run_monte_carlo m N D z).getD x []).getD t 0
              * (1 + (((daily_return m : ℚ) : ℝ) + daily_vol m * z x (t + 1)))) ∧
      daily_return m
        = meanQ ((List.range m.tickers.length).map
            (fun j => meanQ (colj (returnsRows m.rows) j))) ∧
      daily_vol m
        = meanR ((List.range m.tickers.length).map
            (fun j => stdQ (colj (returnsRows m.rows) j))) ∧
      last_price m = meanQ (m.rows.getLastD []) := by
  intro x hx
  refine ⟨?_, ?_, rfl, rfl, rfl⟩
  · rw [run_monte_carlo_getD m N D z x hx, range_map_getD D _ 0 (by omega)]
    rfl
  · intro t ht
    rw [run_monte_carlo_getD m N D z x hx, range_map_getD D _ (t + 1) (by omega),
      range_map_getD D _ t (by omega)]
    rfl

/-- Concrete matrix and draw stream used to witness C6. -/
def mC6 : PriceMatrix := ⟨["A", "B"], [[1, 2], [2, 3], [4, 5]]⟩

/-- Draw stream used to witness C6. -/
def zC6 : ℕ → ℕ → ℝ := fun x t => x + t

theorem C6_path_recurrence_witness :
    ((run_monte_carlo mC6 2 3 zC6).getD 0 []).getD 0 0
      = ((last_price mC6 : ℚ) : ℝ) * (1 + (0 + daily_vol mC6 * zC6 0 0)) :=
  (C6_path_recurrence mC6 2 3 zC6 0 (by decide)).1

/-! ## Price loader (`load_data`)

The store is the joined SQL result: one record per `(symbol, date)` row with
an optional close price (the `close` column is nullable).  `load_data` pivots
it into dates × tickers (pandas sorts the index and the columns) and then
drops every row containing a missing cell. -/

/-- One row of the SQL join `SELECT stocks.symbol, stock_prices.date,
stock_prices.close … `; `close` is a nullable column. -/
structure PriceRec where
  symbol : String
  date : ℕ
  close : Option ℚ
deriving DecidableEq

/-- Kernel-evaluable lexicographic comparison of strings by code point,
matching the sorted column order of the pandas pivot. -/
def strLtB : List Char → List Char → Bool
  | [], [] => false
  | [], _ :: _ => true
  | _ :: _, [] => false
  | a :: as, b :: bs =>
      if a.toNat < b.toNat then true
      else if b.toNat < a.toNat then false
      else strLtB as bs

/-- `a ≤ b` on strings, by code point. -/
def strLeB (a b : String) : Bool := !(strLtB b.data a.data)

/-- Insert into a list sorted by `le`. -/
def insertLe {α : Type} (le : α → α → Bool) (x : α) : List α → List α
  | [] => [x]
  | y :: ys => if le x y then x :: y :: ys else y :: insertLe le x ys

/-- Insertion sort by `le`. -/
def sortLe {α : Type} (le : α → α → Bool) (l : List α) : List α :=
  l.foldr (insertLe le) []

/-- The sorted distinct dates of the store — the pivot's row index. -/
def pivotDates (recs : List PriceRec) : List ℕ :=
  sortLe (fun a b => decide (a ≤ b)) (recs.map (fun r => r.date)).dedup

/-- The sorted distinct symbols of the store — the pivot's column labels. -/
def pivotSymbols (recs : List PriceRec) : List String :=
  sortLe strLeB (recs.map (fun r => r.symbol)).dedup

/-- The pivot cell for date `d` and symbol `s`: the close of the matching
record, missing if there is no record or its close is null. -/
def cellAt (recs : List PriceRec) (d : ℕ) (s : String) : Option ℚ :=
  match recs.find? (fun r => r.date == d && r.symbol == s) with
  | some r => r.close
  | none => none

/-- The pivoted frame before cleaning: one `Option` row per date. -/
def pivotRows (recs : List PriceRec) : List (List (Option ℚ)) :=
  (pivotDates recs).map (fun d => (pivotSymbols recs).map (fun s => cellAt recs d s))

/-- `load_data`: pivot the store and drop all rows with any missing value. -/
def load_data (recs : List PriceRec) : PriceMatrix :=
  ⟨pivotSymbols recs, dropna (pivotRows recs)⟩

lemma seqRow_of_all (r : List (Option ℚ)) (h : r.all Option.isSome = true) :
    seqRow r = some (r.filterMap id) := by
  induction r with
  | nil => rfl
  | cons a t ih =>
      cases a with
      | none => simp at h
      | some x =>
          simp only [List.all_cons, Bool.and_eq_true] at h
          simp [seqRow, ih h.2]

lemma seqRow_of_not_all (r : List (Option ℚ)) (h : ¬ r.all Option.isSome = true) :
    seqRow r = none := by
  induction r with
  | nil => simp at h
  | cons a t ih =>
      cases a with
      | none => rfl
      | some x =>
          simp only [List.all_cons, Bool.and_eq_true] at h
          simp only [seqRow]
          rw [ih (by simpa using h)]
          rfl

lemma dropna_eq_filter (M : List (List (Option ℚ))) :
    dropna M = (M.filter (fun r => r.all Option.isSome)).map (fun r => r.filterMap id) := by
  induction M with
  | nil => rfl
  | cons r rest ih =>
      by_cases h : r.all Option.isSome = true
      · simp only [dropna, List.filterMap_cons, seqRow_of_all r h, List.filter_cons, h,
          if_pos trivial, List.map_cons]
        rw [← ih]
        rfl
      · simp only [dropna, List.filterMap_cons, seqRow_of_not_all r h, List.filter_cons,
          if_neg h]
        exact ih

lemma filterMap_id_len (r : List (Option ℚ)) (h : r.all Option.isSome = true) :
    (r.filterMap id).length = r.length := by
  induction r with
  | nil => rfl
  | cons a t ih =>
      cases a with
      | none => simp at h
      | some x =>
          simp only [List.all_cons, Bool.and_eq_true] at h
          simp [ih h.2]

/-- C7: the loader keeps exactly the pivot rows with no missing cell (a date
row with any ticker missing a close is dropped entirely), and every returned
row has one close price for every ticker — no cell of the result is missing. -/
theorem C7_loader_drops_incomplete_rows (recs : List PriceRec) :
    (load_data recs).rows
      = ((pivotRows recs).filter (fun r => r.all Option.isSome)).map
          (fun r => r.filterMap id) ∧
    ∀ row ∈ (load_data recs).rows, row.length = (load_data recs).tickers.length := by
  refine ⟨dropna_eq_filter (pivotRows recs), ?_⟩
  intro row hrow
  rw [show (load_data recs).rows = dropna (pivotRows recs) from rfl,
    dropna_eq_filter (pivotRows recs)] at hrow
  obtain ⟨orow, horow, rfl⟩ := List.mem_map.mp hrow
  have hall : orow.all Option.isSome = true := (List.mem_filter.mp horow).2
  have hmem : orow ∈ pivotRows recs := (List.mem_filter.mp horow).1
  obtain ⟨d, _, rfl⟩ := List.mem_map.mp hmem
  rw [filterMap_id_len _ hall]
  simp [load_data]

/-! ## Purity of the analytics boundary (C8)

`calculate_metrics`, `optimize_portfolio` and `run_monte_carlo` apply only
allocating pandas/numpy operations to their argument (`pct_change`, `dropna`
without `inplace`, `std`, `cov`, `minimize`), so their state-passing
embeddings return the input matrix unchanged.  `load_data`, by contrast,
takes no PriceMatrix at all: it reads the SQL price store, and its output
varies with the store's contents. -/

/-- State-passing form of `calculate_metrics`: result plus the argument
matrix as it stands after the call (no operation mutates it). -/
noncomputable def calculate_metricsFrame (m : PriceMatrix) :
    (List (List ℚ) × (ℕ → ℝ)) × PriceMatrix :=
  (calculate_metrics m, m)

/-- State-passing form of `optimize_portfolio`. -/
noncomputable def optimize_portfolioFrame (m : PriceMatrix)
    (solve : OptProblem → List ℝ) : List (String × ℝ) × PriceMatrix :=
  (optimize_portfolio m solve, m)

/-- State-passing form of `run_monte_carlo`. -/
noncomputable def run_monte_carloFrame (m : PriceMatrix) (num_simulations days : ℕ)
    (z : ℕ → ℕ → ℝ) : List (List ℝ) × PriceMatrix :=
  (run_monte_carlo m num_simulations days z, m)

/-- A one-record store and the empty store, on which the loader's output
differs — exhibiting that `load_data` reads the price store. -/
def storeA : List PriceRec := [⟨"A", 0, some 1⟩]

/-- The empty store. -/
def storeB : List PriceRec := []

/-- C8 as stated is false: `load_data` does not take a PriceMatrix and does
perform I/O — its result is a function of the persisted store, shown here by
two store states with different loader outputs. -/
theorem C8_purity_counterexample : (load_data storeA).rows ≠ (load_data storeB).rows := by
  decide

/-- C8 amended: the three matrix operations are pure functions of their
explicit inputs — the PriceMatrix, the scalar configuration, and (for the
simulator) the random draws — and leave the input matrix unchanged; the
loader, however, reads the price store, its output varying with the store. -/
theorem C8_purity (m : PriceMatrix) (solve : OptProblem → List ℝ)
    (num_simulations days : ℕ) (z : ℕ → ℕ → ℝ) :
    (calculate_metricsFrame m).2 = m ∧
    (optimize_portfolioFrame m solve).2 = m ∧
    (run_monte_carloFrame m num_simulations days z).2 = m ∧
    (∃ s s' : List PriceRec, (load_data s).rows ≠ (load_data s').rows) :=
  ⟨rfl, rfl, rfl, ⟨storeA, storeB, by decide⟩⟩

/-! ## Dashboard failure dispatch (C9)

The top of `app.py` wraps the store read in `try/except` — any exception
yields `st.error(…)` telling the user to run the ingestion job, followed by
`st.stop()`.  Crucially, a store whose tables exist but hold no rows does
NOT raise inside that guard: `read_sql`, `to_datetime`, `pivot` and `dropna`
all succeed on empty data and `get_data` returns an empty frame.  The script
then dies *outside* the guard — `df_prices.index.min().date()` is evaluated
to seed the date widgets, and `min()` of an empty DatetimeIndex is `NaT`,
whose `.date()` raises — an uncaught stack trace, never the ingestion
message.  Only after the date widgets does an empty ticker selection yield
`st.warning(…)` and `st.stop()`, and only with a non-empty selection does
the page date-filter and column-select the frame and reach
`calculate_metrics`.  `DashRender` records which of the four outcomes one
script run produced; no halting or crashing outcome carries analytics. -/

/-- Outcome of one dashboard script run. -/
inductive DashRender where
  /-- `st.error` directing the user to run `database.ingest`, then `st.stop()`:
  no further UI, no analytics. -/
  | dbError : DashRender
  /-- The script died with an uncaught exception (a stack trace): with an
  empty frame the date-widget seeding `df_prices.index.min().date()` raises
  on `NaT` — no user-facing message, no further UI, no analytics. -/
  | uncaughtCrash : DashRender
  /-- `st.warning` asking for at least one asset, then `st.stop()`:
  no further UI, no analytics. -/
  | selectionWarning : DashRender
  /-- The page rendered, with the computed analytics. -/
  | page : (List (List ℚ) × (ℕ → ℝ)) → DashRender

/-- `df.loc[:, selected]` — restrict a frame to the selected tickers, in
selection order. -/
def selectColumns (df : PriceMatrix) (sel : List String) : PriceMatrix :=
  ⟨sel, df.rows.map (fun r => sel.map (fun s => r.getD (df.tickers.findIdx (fun t => t == s)) 0))⟩

/-- `df_prices.loc[mask, selected_tickers]` — keep the rows whose date lies
in `[startDate, endDate]`, restricted to the selected tickers. -/
def filterFrame (dates : List ℕ) (df : PriceMatrix) (startDate endDate : ℕ)
    (sel : List String) : PriceMatrix :=
  selectColumns
    ⟨df.tickers,
      ((dates.zip df.rows).filter
        (fun p => decide (startDate ≤ p.1) && decide (p.1 ≤ endDate))).map Prod.snd⟩
    sel

/-- The dashboard dispatch: the guarded store read, the date-widget
seeding (which crashes uncaught on an empty frame), the empty-selection
guard, then the analytics on the date-filtered selected columns.  A
successful read carries the frame date index alongside the matrix. -/
noncomputable def dashboard (load : Except Unit (List ℕ × PriceMatrix))
    (startDate endDate : ℕ) (selected : List String) : DashRender :=
  match load with
  | .error _ => .dbError
  | .ok (dates, df) =>
      if dates.isEmpty then .uncaughtCrash
      else if selected.isEmpty then .selectionWarning
      else .page (calculate_metrics (filterFrame dates df startDate endDate selected))

/-- The frame a *successful* read of the store yields: the dates whose pivot
row is complete, paired with the cleaned matrix — an empty store reads
successfully into an empty frame. -/
def storeFrame (recs : List PriceRec) : List ℕ × PriceMatrix :=
  ((((pivotDates recs).zip (pivotRows recs)).filter
      (fun p => p.2.all Option.isSome)).map Prod.fst,
   load_data recs)

/-- The empty-but-initialized store: tables exist, no rows. -/
def storeC9 : List PriceRec := []

/-- C9 as stated is false for an empty store: the empty-but-initialized
store reads successfully into an empty frame, so the try/except never fires
and the script crashes uncaught while seeding the date widgets — it never
shows the ingestion-instruction message. -/
theorem C9_empty_store_counterexample :
    dashboard (Except.ok (storeFrame storeC9)) 0 10 ["AAPL"]
        = DashRender.uncaughtCrash ∧
    dashboard (Except.ok (storeFrame storeC9)) 0 10 ["AAPL"]
        ≠ DashRender.dbError :=
  ⟨rfl, fun h => nomatch h⟩

/-- C9 amended: the dashboard shows the user-facing ingestion message and
halts exactly when the store read raises (store unreachable or
uninitialized); a store that reads successfully but is empty instead dies
with an uncaught exception before any further UI; after a successful
non-empty read, an empty ticker selection shows a warning and halts; and
analytics run only in the remaining case, on the date-filtered selected
columns.  No halting or crashing outcome carries analytics. -/
theorem C9_failure_dispatch (load : Except Unit (List ℕ × PriceMatrix))
    (startDate endDate : ℕ) (selected : List String) :
    (load = .error () → dashboard load startDate endDate selected = .dbError) ∧
    (∀ dates df, load = .ok (dates, df) → dates = [] →
      dashboard load startDate endDate selected = .uncaughtCrash) ∧
    (∀ dates df, load = .ok (dates, df) → dates ≠ [] → selected = [] →
      dashboard load startDate endDate selected = .selectionWarning) ∧
    (∀ dates df, load = .ok (dates, df) → dates ≠ [] → selected ≠ [] →
      dashboard load startDate endDate selected
        = .page (calculate_metrics (filterFrame dates df startDate endDate selected))) := by
  refine ⟨?_, ?_, ?_, ?_⟩
  · intro h
    rw [h]
    rfl
  · intro dates df h hd
    rw [h, hd]
    rfl
  · intro dates df h hd hsel
    rw [h, hsel]
    show (if dates.isEmpty then DashRender.uncaughtCrash
      else if ([] : List String).isEmpty then DashRender.selectionWarning
      else DashRender.page
        (calculate_metrics (filterFrame dates df startDate endDate []))) = _
    rw [if_neg (by simpa [List.isEmpty_iff] using hd)]
    rfl
  · intro dates df h hd hsel
    rw [h]
    show (if dates.isEmpty then DashRender.uncaughtCrash
      else if selected.isEmpty then DashRender.selectionWarning
      else DashRender.page
        (calculate_metrics (filterFrame dates df startDate endDate selected))) = _
    rw [if_neg (by simpa [List.isEmpty_iff] using hd),
      if_neg (by simpa [List.isEmpty_iff] using hsel)]

theorem C9_failure_dispatch_witness :
    dashboard (Except.error ()) 0 10 ["AAPL"] = DashRender.dbError :=
  (C9_failure_dispatch (Except.error ()) 0 10 ["AAPL"]).1 rfl

end QuantCockpit
